import Mathlib

/-!
Verification development for the retry integration
(custom_components/retry): a shallow embedding of its data model and
operations, with theorems checking the natural-language specification
against the code.
-/

namespace RetrySpec

/-! ## Constants (custom_components/retry/const.py and module-level defaults) -/

def DOMAIN : String := "retry"

def ACTION_SERVICE : String := "action"

def ACTIONS_SERVICE : String := "actions"

/-- Modelled from the spec: the legacy single-action service name.
CALL_SERVICE is imported from const.py by the integration module and
registered as a legacy alias of the action service, but its declaration is
missing from the provided const.py; the spec and the claims refer to the
legacy service name "retry.call", so its value is "call". -/
def CALL_SERVICE : String := "call"

def DEFAULT_RETRIES : Nat := 7

def DEFAULT_BACKOFF : String := "[[ 2 ** attempt ]]"

/-- DEFAULT_STATE_GRACE = 0.2, as an exact rational. -/
def DEFAULT_STATE_GRACE : ℚ := mkRat 1 5

/-! ## Python float() on the finite-decimal fragment

The code converts rendered strings with the builtin float(). We embed the
finite-decimal fragment of that conversion (optional sign, digits with an
optional fractional part) exactly, as an integer mantissa with a decimal
scale; strings outside the fragment are rejected, matching the ValueError
behaviour. -/

/-- An exact decimal value mantissa / 10 ^ scale. -/
structure Decimal where
  mantissa : Int
  scale : Nat
deriving DecidableEq, Repr

/-- The rational value of a decimal. -/
def Decimal.toRat (d : Decimal) : ℚ := (d.mantissa : ℚ) / (10 : ℚ) ^ d.scale

/-- Numeric equality of two decimals, by integer cross multiplication. -/
def decimalEq (a b : Decimal) : Bool :=
  a.mantissa * (10 : Int) ^ b.scale == b.mantissa * (10 : Int) ^ a.scale

theorem decimalEq_iff_toRat (a b : Decimal) :
    decimalEq a b = true ↔ a.toRat = b.toRat := by
  unfold decimalEq Decimal.toRat
  rw [beq_iff_eq,
    div_eq_div_iff (pow_ne_zero _ (by norm_num)) (pow_ne_zero _ (by norm_num))]
  constructor
  · intro h
    exact_mod_cast h
  · intro h
    exact_mod_cast h

/-- Value of a list of decimal digit characters. -/
def digitsVal (cs : List Char) : Nat :=
  cs.foldl (fun acc c => acc * 10 + (c.toNat - '0'.toNat)) 0

/-- Parse an unsigned decimal mantissa: digits with an optional dot and
fractional digits, at least one digit overall. -/
def parseMantissa (cs : List Char) : Option Decimal :=
  let intPart := cs.takeWhile Char.isDigit
  let rest := cs.dropWhile Char.isDigit
  match rest with
  | [] => if intPart.isEmpty then none else some ⟨digitsVal intPart, 0⟩
  | '.' :: frac =>
      if frac.all Char.isDigit && !(intPart.isEmpty && frac.isEmpty) then
        some ⟨digitsVal intPart * (10 : Int) ^ frac.length + digitsVal frac,
          frac.length⟩
      else none
  | _ => none

/-- Negation of a decimal value. -/
def Decimal.neg (d : Decimal) : Decimal := ⟨-d.mantissa, d.scale⟩

/-- Model of Python float(string) on the finite-decimal fragment. -/
def pyFloat (s : String) : Option Decimal :=
  match s.toList with
  | '+' :: rest => parseMantissa rest
  | '-' :: rest => (parseMantissa rest).map Decimal.neg
  | cs => parseMantissa cs

/-! ## Template token fixing (_fix_template_tokens) -/

/-- Python str.replace on character lists, replacing every non-overlapping
occurrence of the pattern from left to right; the fuel always exceeds the
input length, so it never runs out. -/
def replaceListF (pat rep : List Char) : Nat → List Char → List Char
  | 0, l => l
  | _ + 1, [] => []
  | f + 1, c :: rest =>
      if !pat.isEmpty && pat.isPrefixOf (c :: rest) then
        rep ++ replaceListF pat rep f ((c :: rest).drop pat.length)
      else
        c :: replaceListF pat rep f rest

/-- Python str.replace lifted to strings. -/
def strReplace (s pat rep : String) : String :=
  ⟨replaceListF pat.toList rep.toList s.toList.length s.toList⟩

/-- The function _fix_template_tokens: replace the artificial bracket tokens with the
Jinja delimiters, in the dictionary order of the source. -/
def fixTemplateTokens (value : String) : String :=
  strReplace (strReplace (strReplace (strReplace (strReplace (strReplace
    value "[[" "\x7b\x7b") "]]" "\x7d\x7d") "[%" "\x7b%") "%]" "%\x7d")
    "[#" "\x7b#") "#]" "#\x7d"

def DEFAULT_BACKOFF_FIXED : String := fixTemplateTokens DEFAULT_BACKOFF

/-- A compiled template, carrying its (token-fixed) source text. -/
structure Template where
  template : String
deriving DecidableEq, Repr

/-- A raw request value, as far as the backoff parameter cares: either a
string or a non-string (for which cv.string raises). -/
inductive PyVal where
  | vstr (s : String)
  | vlist
deriving DecidableEq, Repr

/-- cv.string: accepts strings, raises for list/dict values. -/
def cvString : PyVal → Except String String
  | .vstr s => .ok s
  | .vlist => .error "value should be a string"

/-- The function _backoff_parameter: cv.template(_fix_template_tokens(cv.string(value))).
It only compiles the template (compilation of any text in our fragment
succeeds); it neither renders it nor checks float convertibility. -/
def backoffParameter (value : PyVal) : Except String Template := do
  let s ← cvString value
  pure ⟨fixTemplateTokens s⟩

def isErr {ε α : Type} : Except ε α → Bool
  | .error _ => true
  | .ok _ => false

/-- Whether a character list contains the given pattern as a contiguous
sublist. -/
def hasSublist (pat : List Char) : List Char → Bool
  | [] => pat.isEmpty
  | c :: rest => pat.isPrefixOf (c :: rest) || hasSublist pat rest

/-- Whether a template text contains no Jinja expression or statement
delimiters; Jinja renders such delimiter-free text to itself. -/
def isStaticTemplate (s : String) : Bool :=
  !(hasSublist "\x7b\x7b".toList s.toList || hasSublist "\x7b%".toList s.toList)

/-- Rendering of a template that is plain static text. -/
def staticRender (t : Template) : Option String :=
  if isStaticTemplate t.template then some t.template else none

/-! ## The retry identity registry (_running_retries and the _id methods)

The registry is the module-level dict mapping a retry id to the pair
(context id of the owning call, active count). A dict is embedded as an
association list with dict-assignment semantics. -/

/-- Python dict assignment d[k] = v on an association list: replace the
first binding of k in place, or append a new binding. -/
def dictSet {α : Type} : List (String × α) → String → α → List (String × α)
  | [], k, v => [(k, v)]
  | (k1, v1) :: rest, k, v =>
      if k1 = k then (k, v) :: rest else (k1, v1) :: dictSet rest k v

abbrev Registry := List (String × (String × Nat))

/-- Python truthiness of the retry id: None and the empty string disable
identity tracking (the code tests "not self._retry_id"). -/
def disabledId : Option String → Bool
  | none => true
  | some s => s = ""

/-- The read _running_retries.get(retry_id, [None])[0]: the owner of the entry, if
present. -/
def regOwner (reg : Registry) (rid : String) : Option String :=
  (reg.lookup rid).map Prod.fst

/-- The method _check_id: true when the retry id is disabled, or the registry entry
owner equals the context id of this call. The .get default [None] makes
the owner None when no entry exists, which never equals a context id. -/
def checkId (reg : Registry) (retryId : Option String) (ctxId : String) : Bool :=
  disabledId retryId ||
    (match retryId with
     | none => false
     | some rid => regOwner reg rid == some ctxId)

/-- The method _set_id: store (context id, count) under the retry id, when enabled. -/
def setId (reg : Registry) (retryId : Option String) (ctxId : String) (count : Nat) :
    Registry :=
  match retryId with
  | none => reg
  | some rid => if rid = "" then reg else dictSet reg rid (ctxId, count)

/-- The read _running_retries[retry_id][1]: the count of the entry. The zero default
is unreachable where this is used (checkId with an enabled id implies the
entry exists). -/
def regCountD (reg : Registry) (retryId : Option String) : Nat :=
  match retryId with
  | none => 0
  | some rid =>
      match reg.lookup rid with
      | some p => p.2
      | none => 0

/-- The method _start_id: add or override self as the retry id running job. -/
def startId (reg : Registry) (retryId : Option String) (ctxId : String) : Registry :=
  if disabledId retryId then reg
  else
    setId reg retryId ctxId
      (if !(checkId reg retryId ctxId) then 1 else regCountD reg retryId + 1)

/-- A sequence of acquire calls applied to the initially empty registry;
each call is a pair of retry id and caller context id. -/
def applyAcquires (calls : List (Option String × String)) : Registry :=
  calls.foldl (fun reg c => startId reg c.1 c.2) []

/-- Number of registry entries stored under a given identity. -/
def countKey (reg : Registry) (id1 : String) : Nat :=
  (reg.filter (fun p => p.1 == id1)).length

/-- Modelled from the spec: the is_current predicate exactly as the spec
words it, for comparison with the checkId translation of the code: true if
the identity is disabled, or no entry exists, or the entry owner equals
the caller owner. -/
def specIsCurrent (reg : Registry) (retryId : Option String) (ctxId : String) : Bool :=
  disabledId retryId ||
    (match retryId with
     | none => false
     | some rid => (reg.lookup rid).isNone || regOwner reg rid == some ctxId)

/-! ### Registry helper lemmas -/

theorem countKey_cons (k1 : String) (v1 : String × Nat) (rest : Registry)
    (id1 : String) :
    countKey ((k1, v1) :: rest) id1 =
      (if k1 = id1 then 1 else 0) + countKey rest id1 := by
  by_cases h : k1 = id1
  · simp [countKey, List.filter_cons, h]
    omega
  · simp [countKey, List.filter_cons, h]

theorem countKey_nil (id1 : String) : countKey ([] : Registry) id1 = 0 := by
  simp [countKey]

theorem countKey_dictSet_ne (reg : Registry) (k : String) (v : String × Nat)
    (id1 : String) (hne : k ≠ id1) :
    countKey (dictSet reg k v) id1 = countKey reg id1 := by
  induction reg with
  | nil => simp [dictSet, countKey_cons, countKey_nil, hne]
  | cons p rest ih =>
      obtain ⟨k1, v1⟩ := p
      simp only [dictSet]
      by_cases hk : k1 = k
      · subst hk
        simp [countKey_cons, hne]
      · simp [hk, countKey_cons, ih]

theorem countKey_dictSet_self (reg : Registry) (k : String) (v : String × Nat) :
    countKey (dictSet reg k v) k ≤ max 1 (countKey reg k) := by
  induction reg with
  | nil => simp [dictSet, countKey_cons, countKey_nil]
  | cons p rest ih =>
      obtain ⟨k1, v1⟩ := p
      simp only [dictSet]
      by_cases hk : k1 = k
      · subst hk
        simp [countKey_cons]
      · simp only [if_neg hk, countKey_cons]
        omega

theorem countKey_dictSet_le (reg : Registry) (k : String) (v : String × Nat)
    (id1 : String) (h : countKey reg id1 ≤ 1) :
    countKey (dictSet reg k v) id1 ≤ 1 := by
  by_cases hk : k = id1
  · subst hk
    have := countKey_dictSet_self reg k v
    omega
  · rw [countKey_dictSet_ne reg k v id1 hk]
    exact h

/-- startId only ever leaves the registry unchanged or performs one dict
assignment, so it preserves the at-most-one-entry bound. -/
theorem countKey_startId_le (reg : Registry) (retryId : Option String)
    (ctxId : String) (id1 : String) (h : countKey reg id1 ≤ 1) :
    countKey (startId reg retryId ctxId) id1 ≤ 1 := by
  unfold startId setId
  split
  · exact h
  · match retryId with
    | none => exact h
    | some rid =>
        by_cases hr : rid = ""
        · simp only [if_pos hr]; exact h
        · simp only [if_neg hr]
          exact countKey_dictSet_le _ _ _ _ h

theorem countKey_applyAcquires_le (calls : List (Option String × String))
    (id1 : String) : countKey (applyAcquires calls) id1 ≤ 1 := by
  have general : ∀ (cs : List (Option String × String)) (reg : Registry),
      countKey reg id1 ≤ 1 →
      countKey (cs.foldl (fun r c => startId r c.1 c.2) reg) id1 ≤ 1 := by
    intro cs
    induction cs with
    | nil => intro reg h; simpa using h
    | cons c rest ih =>
        intro reg h
        simp only [List.foldl_cons]
        exact ih _ (countKey_startId_le reg c.1 c.2 id1 h)
  have h0 : countKey ([] : Registry) id1 ≤ 1 := by simp [countKey]
  exact general calls [] h0

/-! ### Claim theorems about the registry -/

/-- C1: the acquire operation (_start_id) inserts (owner, 1) when no entry
exists, increments the count when the existing entry has the same owner,
overwrites with (owner, 1) when the existing entry has a different owner,
and any sequence of acquire calls leaves at most one registry entry per
identity. -/
theorem c1_registry_acquire (reg : Registry) (rid : String) (ctxId : String)
    (h : rid ≠ "") :
    (reg.lookup rid = none →
        startId reg (some rid) ctxId = dictSet reg rid (ctxId, 1)) ∧
    (∀ c, reg.lookup rid = some (ctxId, c) →
        startId reg (some rid) ctxId = dictSet reg rid (ctxId, c + 1)) ∧
    (∀ owner c, reg.lookup rid = some (owner, c) → owner ≠ ctxId →
        startId reg (some rid) ctxId = dictSet reg rid (ctxId, 1)) ∧
    (∀ (calls : List (Option String × String)) (id1 : String),
        countKey (applyAcquires calls) id1 ≤ 1) := by
  refine ⟨?_, ?_, ?_, ?_⟩
  · intro hnone
    unfold startId checkId setId regCountD disabledId regOwner
    simp [h, hnone]
  · intro c hsome
    unfold startId checkId setId regCountD disabledId regOwner
    simp [h, hsome]
  · intro owner c hsome hne
    unfold startId checkId setId regCountD disabledId regOwner
    simp [h, hsome, hne]
  · intro calls id1
    exact countKey_applyAcquires_le calls id1

/-- Witness for c1_registry_acquire at a concrete identity and owner. -/
theorem c1_registry_acquire_witness :
    ("light.x" : String) ≠ "" ∧
      startId [] (some "light.x") "ctx1" = [("light.x", ("ctx1", 1))] := by
  refine ⟨by decide, ?_⟩
  have h := (c1_registry_acquire [] "light.x" "ctx1" (by decide)).1 rfl
  simpa [dictSet] using h

/-- C2 counterexample: with an enabled identity and no registry entry, the
spec predicate (is_current true when no entry exists) says true, but the
code (_check_id) returns false, because the None default owner never
equals a context id. -/
theorem c2_is_current_counterexample :
    specIsCurrent [] (some "x") "a" = true ∧ checkId [] (some "x") "a" = false := by
  decide

/-- C2 (amended): the currency check (_check_id) returns true if and only
if the identity is disabled (empty or null) or a registry entry exists for
it whose owner equals the caller owner; in particular it returns false
when no entry exists for an enabled identity. -/
theorem c2_check_id_iff (reg : Registry) (retryId : Option String) (ctxId : String) :
    checkId reg retryId ctxId = true ↔
      (disabledId retryId = true ∨
        ∃ rid c, retryId = some rid ∧ reg.lookup rid = some (ctxId, c)) := by
  cases retryId with
  | none => simp [checkId, disabledId]
  | some rid =>
      by_cases h : rid = ""
      · subst h
        simp [checkId, disabledId]
      · simp only [checkId, disabledId, regOwner]
        cases hl : reg.lookup rid with
        | none => simp [h, hl]
        | some p =>
            obtain ⟨o, c⟩ := p
            simp only [hl, Option.map_some', Bool.or_eq_true, decide_eq_true_eq,
              Option.some.injEq, beq_iff_eq]
            constructor
            · rintro (hc | hc)
              · exact absurd hc h
              · exact Or.inr ⟨rid, c, rfl, by rw [hl, hc]⟩
            · rintro (hc | ⟨rid1, c1, hr, hlk⟩)
              · exact Or.inl hc
              · cases hr
                rw [hl] at hlk
                cases hlk
                exact Or.inr rfl

/-! ## Expected-state checking (RetryAction._check_state) -/

/-- Comparison of one expected value against the entity state: exact
string equality, or both values convert with float() and are numerically
equal (a ValueError from either conversion is swallowed and the pair does
not match). -/
def stateMatches (state expected : String) : Bool :=
  state == expected ||
    (match pyFloat state, pyFloat expected with
     | some a, some b => decimalEq a b
     | _, _ => false)

/-- The method _check_state: vacuously true when there is no entity or no
expected_state parameter; otherwise true when some expected value in the
list matches the entity state. -/
def checkState (entityState : Option String) (expected : Option (List String)) : Bool :=
  match entityState, expected with
  | none, _ => true
  | _, none => true
  | some st, some exps => exps.any (stateMatches st)

theorem stateMatches_iff (st e : String) :
    stateMatches st e = true ↔
      st = e ∨ ∃ a b, pyFloat st = some a ∧ pyFloat e = some b ∧
        a.toRat = b.toRat := by
  unfold stateMatches
  cases ha : pyFloat st <;> cases hb : pyFloat e <;>
    simp [ha, hb, beq_iff_eq, decimalEq_iff_toRat]

/-- C7: for an entity state and a non-empty expected-state list, the check
succeeds iff some expected value equals the state exactly as strings, or
both convert to floats that are numerically equal; the values are OR
combined and two different non-numeric strings never match. -/
theorem c7_expected_state_iff (st : String) (exps : List String) (_h : exps ≠ []) :
    checkState (some st) (some exps) = true ↔
      ∃ e ∈ exps, st = e ∨
        ∃ a b, pyFloat st = some a ∧ pyFloat e = some b ∧
          a.toRat = b.toRat := by
  simp only [checkState, List.any_eq_true, stateMatches_iff]

/-- Witness for c7_expected_state_iff: the state 50.0 against expected 50. -/
theorem c7_expected_state_iff_witness :
    ((["50"] : List String) ≠ [] ∧ checkState (some "50.0") (some ["50"]) = true) ∧
      (checkState (some "50.0") (some ["50"]) = true ↔
        ∃ e ∈ (["50"] : List String), "50.0" = e ∨
          ∃ a b, pyFloat "50.0" = some a ∧ pyFloat e = some b ∧
            a.toRat = b.toRat) :=
  ⟨⟨by decide, by decide⟩, c7_expected_state_iff "50.0" ["50"] (by decide)⟩

/-! ## The retries schema field (SERVICE_SCHEMA_BASE_FIELDS) -/

/-- The host platform validator cv.positive_int: Coerce(int) followed by
Range(min=0); its minimum is zero, not one. -/
def positiveInt (n : Int) : Except String Int :=
  if 0 ≤ n then .ok n else .error "value must be at least 0"

/-- The retries field: vol.Required with default DEFAULT_RETRIES validated
by cv.positive_int; a missing value receives the default. -/
def retriesField (input : Option Int) : Except String Int :=
  match input with
  | none => positiveInt (Int.ofNat DEFAULT_RETRIES)
  | some n => positiveInt n

/-- C9 counterexample: retries 0 is below 1 yet passes validation, because
cv.positive_int only enforces a minimum of zero. -/
theorem c9_retries_zero_counterexample :
    (0 : Int) < 1 ∧ retriesField (some 0) = Except.ok 0 :=
  ⟨by decide, rfl⟩

/-- C9 (amended): the retries parameter defaults to 7 when omitted and
negative values are rejected, but 0 is accepted; validation enforces only
non-negativity, not a minimum of 1. -/
theorem c9_retries_default_and_range :
    retriesField none = Except.ok 7 ∧
      (∀ n : Int, n < 0 → isErr (retriesField (some n)) = true) ∧
      retriesField (some 0) = Except.ok 0 := by
  refine ⟨rfl, ?_, rfl⟩
  intro n hn
  simp only [retriesField, positiveInt]
  rw [if_neg (by omega)]
  rfl

/-- Witness for c9_retries_default_and_range at the value -1. -/
theorem c9_retries_default_and_range_witness :
    (-1 : Int) < 0 ∧ isErr (retriesField (some (-1))) = true :=
  ⟨by decide, c9_retries_default_and_range.2.1 (-1) (by decide)⟩

/-! ## Group expansion (RetryParams._expand_group) -/

def GROUP_DOMAIN : String := "group"

/-- The slice of an entity object that group expansion reads: the platform
name of its platform (when both exist) and the entity_id list of its extra
state attributes (empty when absent). -/
structure EntityInfo where
  platformName : Option String
  members : List String
deriving DecidableEq, Repr

/-- The entity component state: entity id to entity object. -/
abbrev EntityEnv := List (String × EntityInfo)

/-- The group test of _expand_group: the entity exists, its platform is
set, and the platform name is the group domain. -/
def isGroupEntity (env : EntityEnv) (eid : String) : Bool :=
  match env.lookup eid with
  | some info => info.platformName == some GROUP_DOMAIN
  | none => false

/-- extra_state_attributes.get(entity_id, []): the member list. -/
def memberIds (env : EntityEnv) (eid : String) : List String :=
  match env.lookup eid with
  | some info => info.members
  | none => []

/-- The method _expand_group: a group entity is replaced by the concatenation of its
recursively expanded members; anything else expands to itself. The
explicit fuel stands for the recursion depth of the Python code, which
recurses without any own bound; the termination theorem shows a rank of
the acyclic membership relation bounds it. -/
def expandGroup (env : EntityEnv) : Nat → String → Option (List String)
  | 0, _ => none
  | fuel + 1, eid =>
      if isGroupEntity env eid then
        (memberIds env eid).foldr
          (fun m acc => do pure ((← expandGroup env fuel m) ++ (← acc)))
          (some [])
      else some [eid]

/-- The member loop of _expand_group, as a standalone function. -/
def expandList (env : EntityEnv) (fuel : Nat) : List String → Option (List String)
  | [] => some []
  | m :: ms => do pure ((← expandGroup env fuel m) ++ (← expandList env fuel ms))

theorem expandGroup_foldr_eq_expandList (env : EntityEnv) (fuel : Nat)
    (ms : List String) :
    ms.foldr (fun m acc => do pure ((← expandGroup env fuel m) ++ (← acc)))
      (some []) = expandList env fuel ms := by
  induction ms with
  | nil => rfl
  | cons m rest ih => simp only [List.foldr_cons, ih, expandList]

theorem expandGroup_group (env : EntityEnv) (fuel : Nat) (eid : String)
    (h : isGroupEntity env eid = true) :
    expandGroup env (fuel + 1) eid = expandList env fuel (memberIds env eid) := by
  simp only [expandGroup, h, if_true, expandGroup_foldr_eq_expandList]

theorem expandGroup_not_group (env : EntityEnv) (fuel : Nat) (eid : String)
    (h : isGroupEntity env eid = false) :
    expandGroup env (fuel + 1) eid = some [eid] := by
  simp only [expandGroup, h, Bool.false_eq_true, if_false]

/-- No group entity ever appears in an expansion result. -/
theorem expandGroup_no_group (env : EntityEnv) :
    ∀ fuel eid res, expandGroup env fuel eid = some res →
      ∀ x ∈ res, isGroupEntity env x = false := by
  intro fuel
  induction fuel with
  | zero => intro eid res h; simp [expandGroup] at h
  | succ f ih =>
      have ihList : ∀ ms res, expandList env f ms = some res →
          ∀ x ∈ res, isGroupEntity env x = false := by
        intro ms
        induction ms with
        | nil =>
            intro res h
            simp only [expandList] at h
            cases h
            intro x hx
            simp at hx
        | cons m rest ihm =>
            intro res h x hx
            simp only [expandList, Option.bind_eq_bind, Option.pure_def] at h
            cases hm : expandGroup env f m with
            | none => rw [hm] at h; simp at h
            | some r1 =>
                cases hr : expandList env f rest with
                | none => rw [hm, hr] at h; simp at h
                | some r2 =>
                    rw [hm, hr] at h
                    simp at h
                    subst h
                    rcases List.mem_append.1 hx with hx1 | hx2
                    · exact ih m r1 hm x hx1
                    · exact ihm r2 hr x hx2
      intro eid res h x hx
      by_cases hg : isGroupEntity env eid = true
      · rw [expandGroup_group env f eid hg] at h
        exact ihList _ res h x hx
      · rw [expandGroup_not_group env f eid (by simpa using hg)] at h
        cases h
        simp only [List.mem_singleton] at hx
        subst hx
        simpa using hg

/-- The acyclicity hypothesis: a rank function under which every group
member ranks strictly below its group. On a finite acyclic membership
relation such a rank always exists. -/
def GroupRanked (env : EntityEnv) (rank : String → Nat) : Prop :=
  ∀ p ∈ env, p.2.platformName = some GROUP_DOMAIN →
    ∀ m ∈ p.2.members, rank m < rank p.1

instance groupRankedDecidable (env : EntityEnv) (rank : String → Nat) :
    Decidable (GroupRanked env rank) := by
  unfold GroupRanked
  infer_instance

theorem mem_of_lookup_eq_some {α : Type} {l : List (String × α)} {k : String}
    {b : α} (h : l.lookup k = some b) : (k, b) ∈ l := by
  obtain ⟨l₁, l₂, rfl, -⟩ := List.lookup_eq_some_iff.1 h
  simp

theorem rank_members_lt (env : EntityEnv) (rank : String → Nat)
    (hrank : GroupRanked env rank) (eid : String)
    (hg : isGroupEntity env eid = true) :
    ∀ m ∈ memberIds env eid, rank m < rank eid := by
  intro m hm
  unfold isGroupEntity at hg
  unfold memberIds at hm
  cases hl : env.lookup eid with
  | none => rw [hl] at hg; simp at hg
  | some info =>
      rw [hl] at hg hm
      have hmem := mem_of_lookup_eq_some hl
      have hplat : info.platformName = some GROUP_DOMAIN := by
        simpa [beq_iff_eq] using hg
      exact hrank (eid, info) hmem hplat m hm

theorem expandList_isSome (env : EntityEnv) (f : Nat) :
    ∀ ms : List String, (∀ m ∈ ms, (expandGroup env f m).isSome = true) →
      (expandList env f ms).isSome = true := by
  intro ms
  induction ms with
  | nil =>
      intro _
      simp [expandList]
  | cons m rest ihm =>
      intro hmem
      have hm1 := hmem m (List.mem_cons_self m rest)
      have hr := ihm (fun m1 hm1' => hmem m1 (List.mem_cons_of_mem _ hm1'))
      simp only [expandList, Option.bind_eq_bind, Option.pure_def]
      cases he : expandGroup env f m with
      | none => rw [he] at hm1; simp at hm1
      | some r1 =>
          cases hl : expandList env f rest with
          | none => rw [hl] at hr; simp at hr
          | some r2 => simp

theorem expandGroup_isSome (env : EntityEnv) (rank : String → Nat)
    (hrank : GroupRanked env rank) :
    ∀ fuel eid, rank eid < fuel → (expandGroup env fuel eid).isSome = true := by
  intro fuel
  induction fuel with
  | zero => intro eid h; omega
  | succ f ih =>
      intro eid h
      by_cases hg : isGroupEntity env eid = true
      · rw [expandGroup_group env f eid hg]
        refine expandList_isSome env f _ ?_
        intro m hm
        have h1 := rank_members_lt env rank hrank eid hg m hm
        exact ih m (by omega)
      · rw [expandGroup_not_group env f eid (by simpa using hg)]
        simp

/-- C8: under an acyclic group-membership relation (witnessed by a rank),
group expansion terminates with fuel rank+1, its result contains no group
entity, a non-group entity expands to the one-element list of itself, a
group is replaced by the expansions of its members, and the member
expansion is their concatenation. -/
theorem c8_expand_group (env : EntityEnv) (rank : String → Nat)
    (hrank : GroupRanked env rank) (eid : String) :
    (∃ res, expandGroup env (rank eid + 1) eid = some res ∧
        ∀ x ∈ res, isGroupEntity env x = false) ∧
    (isGroupEntity env eid = false →
        expandGroup env (rank eid + 1) eid = some [eid]) ∧
    (isGroupEntity env eid = true →
        expandGroup env (rank eid + 1) eid =
          expandList env (rank eid) (memberIds env eid)) ∧
    (∀ f m ms, expandList env f (m :: ms) = do
        pure ((← expandGroup env f m) ++ (← expandList env f ms))) := by
  refine ⟨?_, ?_, ?_, ?_⟩
  · have hs := expandGroup_isSome env rank hrank (rank eid + 1) eid (by omega)
    cases he : expandGroup env (rank eid + 1) eid with
    | none => rw [he] at hs; simp at hs
    | some res =>
        exact ⟨res, rfl, fun x hx => expandGroup_no_group env _ eid res he x hx⟩
  · intro h
    exact expandGroup_not_group env (rank eid) eid h
  · intro h
    exact expandGroup_group env (rank eid) eid h
  · intro f m ms
    rfl

/-- A concrete environment: a group containing a sub-group containing a
plain entity. -/
def sampleEnv : EntityEnv :=
  [("group.a", ⟨some "group", ["group.b", "light.x"]⟩),
   ("group.b", ⟨some "group", ["light.y"]⟩),
   ("light.x", ⟨some "light", []⟩)]

/-- A rank function witnessing that sampleEnv is acyclic. -/
def sampleRank : String → Nat := fun s =>
  if s = "group.a" then 2 else if s = "group.b" then 1 else 0

/-- Witness for c8_expand_group on the nested sample environment. -/
theorem c8_expand_group_witness :
    GroupRanked sampleEnv sampleRank ∧
      (∃ res, expandGroup sampleEnv (sampleRank "group.a" + 1) "group.a" =
          some res ∧ ∀ x ∈ res, isGroupEntity sampleEnv x = false) :=
  ⟨by decide, (c8_expand_group sampleEnv sampleRank (by decide) "group.a").1⟩

/-! ## The attempt chain (RetryAction.async_retry)

The chain is embedded as the list of externally visible events of
async_retry and the attempts it re-arms, with the external collaborators
abstracted into functions: currentAt is the _check_id observation at the
start of each attempt, failsAt whether the underlying invocation or its
validation raises, backoffRender the string produced by rendering the
backoff template with the attempt variable. -/

/-- A dynamic value appearing in the rendered call string of
_compose_action_str: a string (rendered quoted), a number, or None. -/
inductive ParamValue where
  | pstr (s : String)
  | pnum (q : ℚ)
  | pnone
deriving DecidableEq

/-- Python f-string rendering of one non-default retry parameter:
name="value" for strings, name=value otherwise. -/
def renderParam (name1 : String) : ParamValue → String
  | .pstr s => name1 ++ "=\"" ++ s ++ "\""
  | .pnum q => name1 ++ "=" ++ toString q
  | .pnone => name1 ++ "=None"

/-- The per-chain data of a RetryAction: target action, forwarded inner
parameters (already rendered to strings), and the retry parameters. -/
structure ChainParams where
  domain : String
  service : String
  innerData : List (String × String)
  retries : Nat
  backoffTemplate : String
  expectedState : Option (List String)
  validationTemplate : Option String
  stateDelay : ℚ
  stateGrace : ℚ
  retryIdField : Option (Option String)
  disableRepair : Bool
  hasOnError : Bool

/-- The method _compose_action_str: the canonical rendering of the call, used both
for log lines and as the repair ticket issue id: the action with its
inner parameters, then a bracketed suffix of the non-default retry
parameters. -/
def composeActionStr (p : ChainParams) : String :=
  let serviceCall := p.domain ++ "." ++ p.service ++ "(" ++
    String.intercalate ", " (p.innerData.map (fun kv => kv.1 ++ "=" ++ kv.2)) ++ ")"
  let expectedPart : List String :=
    match p.expectedState with
    | none => []
    | some es =>
        if es.length = 1 then ["expected_state=" ++ es.headD ""]
        else ["expected_state in (" ++ String.intercalate ", " es ++ ")"]
  let fields : List (String × ParamValue × ParamValue) :=
    [("backoff", .pstr p.backoffTemplate, .pstr DEFAULT_BACKOFF_FIXED),
     ("validation",
       (match p.validationTemplate with | some t => .pstr t | none => .pnone),
       .pnone),
     ("state_delay", .pnum p.stateDelay, .pnum 0),
     ("state_grace", .pnum p.stateGrace, .pnum DEFAULT_STATE_GRACE),
     ("retry_id",
       (match p.retryIdField with
        | some (some s) => .pstr s
        | some none => .pnone
        | none => .pnone),
       (match p.retryIdField with
        | none => .pnone
        | some _ => .pstr "add"))]
  let retryParams := expectedPart ++ fields.filterMap (fun f =>
    if f.2.1 ≠ f.2.2 then some (renderParam f.1 f.2.1) else none)
  if retryParams.length > 0 then
    serviceCall ++ "[" ++ String.intercalate ", " retryParams ++ "]"
  else serviceCall

inductive LogLevel where
  | debug
  | info
  | warn
  | error
deriving DecidableEq, Repr

/-- The externally visible effects of the attempt chain. -/
inductive ChainEvent where
  | invoke
  | logLine (level : LogLevel) (tag : String)
  | repairTicket (issueId : String)
  | releaseId
  | fallbackRun
  | schedule (delaySeconds : Decimal)
  | fireError
deriving DecidableEq

/-- async_retry: one scheduled attempt and the chain it re-arms. The fuel
argument bounds how many further attempts are modelled; it is consumed by
one on each attempt, and the theorems always supply enough of it. A
fireError event marks the float conversion of the rendered backoff value
raising at fire time, which aborts the chain without scheduling. -/
def asyncRetry (p : ChainParams) (currentAt failsAt : Nat → Bool)
    (backoffRender : Nat → String) : Nat → Nat → List ChainEvent
  | _, 0 => []
  | attempt, fuel + 1 =>
    if !(currentAt attempt) then [.logLine .info "Cancelled"]
    else if !(failsAt attempt) then
      [.invoke, .logLine (if attempt = 1 then .debug else .info) "Succeeded",
       .releaseId]
    else
      [.invoke,
       .logLine (if attempt < p.retries then .warn else .error) "Failed"] ++
      (if attempt = p.retries then
        (if p.disableRepair then [] else [.repairTicket (composeActionStr p)]) ++
          [.releaseId] ++ (if p.hasOnError then [.fallbackRun] else [])
      else
        match pyFloat (backoffRender (attempt - 1)) with
        | none => [.fireError]
        | some d =>
            [.schedule d] ++
              asyncRetry p currentAt failsAt backoffRender (attempt + 1) fuel)

def isInvoke : ChainEvent → Bool
  | .invoke => true
  | _ => false

def scheduledDelay : ChainEvent → Option Decimal
  | .schedule d => some d
  | _ => none

def repairIssueId : ChainEvent → Option String
  | .repairTicket s => some s
  | _ => none

def isFallbackRun : ChainEvent → Bool
  | .fallbackRun => true
  | _ => false

/-- Number of underlying action invocations in an event trace. -/
def invokeCount (es : List ChainEvent) : Nat := (es.filter isInvoke).length

/-- The backoff delays scheduled in an event trace, in order. -/
def scheduleList (es : List ChainEvent) : List Decimal :=
  es.filterMap scheduledDelay

/-- The repair tickets created in an event trace, by issue id. -/
def repairList (es : List ChainEvent) : List String := es.filterMap repairIssueId

/-- Number of fallback sequence runs in an event trace. -/
def fallbackCount (es : List ChainEvent) : Nat := (es.filter isFallbackRun).length

/-- One-step unfolding of asyncRetry at positive fuel. -/
theorem asyncRetry_succ (p : ChainParams) (currentAt failsAt : Nat → Bool)
    (backoffRender : Nat → String) (attempt fuel : Nat) :
    asyncRetry p currentAt failsAt backoffRender attempt (fuel + 1) =
      (if !(currentAt attempt) then [.logLine .info "Cancelled"]
      else if !(failsAt attempt) then
        [.invoke, .logLine (if attempt = 1 then .debug else .info) "Succeeded",
         .releaseId]
      else
        [.invoke,
         .logLine (if attempt < p.retries then .warn else .error) "Failed"] ++
        (if attempt = p.retries then
          (if p.disableRepair then [] else [.repairTicket (composeActionStr p)]) ++
            [.releaseId] ++ (if p.hasOnError then [.fallbackRun] else [])
        else
          match pyFloat (backoffRender (attempt - 1)) with
          | none => [.fireError]
          | some d =>
              [.schedule d] ++
                asyncRetry p currentAt failsAt backoffRender (attempt + 1) fuel)) :=
  rfl

/-- Generalised chain induction for an always-failing, never-superseded
chain: starting at attempt a with n attempts remaining after it. -/
theorem asyncRetry_fail_chain (p : ChainParams) (currentAt failsAt : Nat → Bool)
    (backoffRender : Nat → String) (delayOf : Nat → Decimal)
    (hcur : ∀ a, currentAt a = true) (hfail : ∀ a, failsAt a = true)
    (hrender : ∀ k, pyFloat (backoffRender k) = some (delayOf k))
    (hrepair : p.disableRepair = false) :
    ∀ n a, 1 ≤ a → a + n = p.retries →
      invokeCount (asyncRetry p currentAt failsAt backoffRender a (n + 1)) = n + 1 ∧
      scheduleList (asyncRetry p currentAt failsAt backoffRender a (n + 1)) =
        (List.range' (a - 1) n).map delayOf ∧
      repairList (asyncRetry p currentAt failsAt backoffRender a (n + 1)) =
        [composeActionStr p] := by
  intro n
  induction n with
  | zero =>
      intro a ha1 ha
      have haR : a = p.retries := by omega
      subst haR
      rw [asyncRetry_succ]
      simp only [hcur, hfail, Bool.not_true, Bool.false_eq_true, if_false,
        ite_true, if_pos rfl, hrepair]
      cases hOE : p.hasOnError <;>
        simp [invokeCount, scheduleList, repairList, isInvoke, scheduledDelay,
          repairIssueId, List.filter_cons, List.filterMap_cons]
  | succ n ih =>
      intro a ha1 ha
      have hne : ¬(a = p.retries) := by omega
      have hIH := ih (a + 1) (by omega) (by omega)
      have hstep : a - 1 + 1 = a := by omega
      rw [asyncRetry_succ]
      simp only [hcur, hfail, Bool.not_true, Bool.false_eq_true, if_false,
        if_neg hne, hrender]
      refine ⟨?_, ?_, ?_⟩
      · simp only [invokeCount, List.filter_cons, List.filter_append,
          List.length_append, isInvoke] at hIH ⊢
        simp [hIH.1]
        omega
      · simp only [scheduleList, List.filterMap_cons, List.filterMap_append,
          scheduledDelay] at hIH ⊢
        rw [List.range'_succ]
        simp only [List.map_cons, hstep]
        simp [hIH.2.1]
      · simp only [repairList, List.filterMap_cons, List.filterMap_append,
          repairIssueId] at hIH ⊢
        simp [hIH.2.2]

/-- C3: for a retry limit of at least 1, an action that fails on every
attempt and a chain that is never superseded (with repair tickets
enabled), the chain performs exactly retries invocations, the scheduled
delays are the backoff expression evaluated at the attempt variable
0 .. retries-2, and exactly one repair ticket is created, whose issue id
is the rendered call string. -/
theorem c3_always_fail (p : ChainParams) (currentAt failsAt : Nat → Bool)
    (backoffRender : Nat → String) (delayOf : Nat → Decimal)
    (hR : 1 ≤ p.retries)
    (hcur : ∀ a, currentAt a = true) (hfail : ∀ a, failsAt a = true)
    (hrender : ∀ k, pyFloat (backoffRender k) = some (delayOf k))
    (hrepair : p.disableRepair = false) :
    invokeCount (asyncRetry p currentAt failsAt backoffRender 1 p.retries) =
        p.retries ∧
    scheduleList (asyncRetry p currentAt failsAt backoffRender 1 p.retries) =
        (List.range (p.retries - 1)).map delayOf ∧
    repairList (asyncRetry p currentAt failsAt backoffRender 1 p.retries) =
        [composeActionStr p] := by
  have h := asyncRetry_fail_chain p currentAt failsAt backoffRender delayOf
    hcur hfail hrender hrepair (p.retries - 1) 1 (by omega) (by omega)
  have hfuel : p.retries - 1 + 1 = p.retries := by omega
  rw [hfuel] at h
  have hzero : (1 : Nat) - 1 = 0 := rfl
  rw [hzero] at h
  rw [List.range_eq_range']
  exact h

/-- Concrete chain parameters used by the witnesses. -/
def sampleParams : ChainParams :=
  { domain := "light"
    service := "turn_on"
    innerData := []
    retries := 2
    backoffTemplate := DEFAULT_BACKOFF_FIXED
    expectedState := none
    validationTemplate := none
    stateDelay := 0
    stateGrace := DEFAULT_STATE_GRACE
    retryIdField := none
    disableRepair := false
    hasOnError := false }

/-- The constant backoff string of the witnesses parses as ten seconds. -/
theorem pyFloat_ten : pyFloat "10" = some ⟨10, 0⟩ := by decide

/-- Witness for c3_always_fail: two attempts with a constant backoff of
ten seconds. -/
theorem c3_always_fail_witness :
    (1 ≤ sampleParams.retries ∧ sampleParams.disableRepair = false ∧
      pyFloat "10" = some ⟨10, 0⟩) ∧
    invokeCount (asyncRetry sampleParams (fun _ => true) (fun _ => true)
        (fun _ => "10") 1 sampleParams.retries) = sampleParams.retries ∧
    scheduleList (asyncRetry sampleParams (fun _ => true) (fun _ => true)
        (fun _ => "10") 1 sampleParams.retries) =
      (List.range (sampleParams.retries - 1)).map
        (fun _ => (⟨10, 0⟩ : Decimal)) ∧
    repairList (asyncRetry sampleParams (fun _ => true) (fun _ => true)
        (fun _ => "10") 1 sampleParams.retries) = [composeActionStr sampleParams] :=
  ⟨⟨by decide, rfl, pyFloat_ten⟩,
    c3_always_fail sampleParams (fun _ => true) (fun _ => true) (fun _ => "10")
      (fun _ => ⟨10, 0⟩) (by decide) (fun _ => rfl) (fun _ => rfl)
      (fun _ => pyFloat_ten) rfl⟩

/-- C5: when at the start of a scheduled attempt the registry entry for
the chain identity is owned by a different invocation id, the attempt
performs no invocation, schedules nothing, creates no repair ticket, runs
no fallback, and its only effect is one info-level log line. -/
theorem c5_cancelled (p : ChainParams) (reg : Registry) (rid ctxId owner : String)
    (c : Nat) (failsAt : Nat → Bool) (backoffRender : Nat → String)
    (attempt fuel : Nat)
    (hrid : rid ≠ "") (hentry : reg.lookup rid = some (owner, c))
    (howner : owner ≠ ctxId) (hfuel : 0 < fuel) :
    asyncRetry p (fun _ => checkId reg (some rid) ctxId) failsAt backoffRender
        attempt fuel = [.logLine .info "Cancelled"] ∧
    invokeCount (asyncRetry p (fun _ => checkId reg (some rid) ctxId) failsAt
        backoffRender attempt fuel) = 0 ∧
    scheduleList (asyncRetry p (fun _ => checkId reg (some rid) ctxId) failsAt
        backoffRender attempt fuel) = [] ∧
    repairList (asyncRetry p (fun _ => checkId reg (some rid) ctxId) failsAt
        backoffRender attempt fuel) = [] ∧
    fallbackCount (asyncRetry p (fun _ => checkId reg (some rid) ctxId) failsAt
        backoffRender attempt fuel) = 0 := by
  have hc : checkId reg (some rid) ctxId = false := by
    simp [checkId, disabledId, regOwner, hentry, hrid, howner]
  cases fuel with
  | zero => omega
  | succ f =>
      have hev : asyncRetry p (fun _ => checkId reg (some rid) ctxId) failsAt
          backoffRender attempt (f + 1) = [.logLine .info "Cancelled"] := by
        simp [asyncRetry, hc]
      refine ⟨hev, ?_, ?_, ?_, ?_⟩ <;>
        rw [hev] <;>
        simp [invokeCount, scheduleList, repairList, fallbackCount, isInvoke,
          scheduledDelay, repairIssueId, isFallbackRun]

/-- Witness for c5_cancelled: a chain owned by a different context id. -/
theorem c5_cancelled_witness :
    (("light.x" : String) ≠ "" ∧
      ([("light.x", ("ctxOld", 1))] : Registry).lookup "light.x" =
        some ("ctxOld", 1) ∧
      ("ctxOld" : String) ≠ "ctxNew" ∧ (0 : Nat) < 1) ∧
    asyncRetry sampleParams
        (fun _ => checkId [("light.x", ("ctxOld", 1))] (some "light.x") "ctxNew")
        (fun _ => true) (fun _ => "10") 1 1 = [.logLine .info "Cancelled"] :=
  ⟨⟨by decide, rfl, by decide, by decide⟩,
    (c5_cancelled sampleParams [("light.x", ("ctxOld", 1))] "light.x" "ctxNew"
      "ctxOld" 1 (fun _ => true) (fun _ => "10") 1 1 (by decide) rfl (by decide)
      (by decide)).1⟩

/-- C4: the backoff parameter validation does not reject a value whose
rendering is not convertible to a float: _backoff_parameter only compiles
the template, and the float conversion of the rendered value then fails
at timer-fire time inside the scheduled attempt, which aborts the chain
without scheduling a next attempt. The test suite
(test_backoff_rendered_value) expects such a value to be rejected with an
expected-float error at call time, so the render-and-convert validation
step is missing from the code. -/
theorem c4_backoff_not_validated :
    isErr (backoffParameter (.vstr "abc")) = false ∧
    fixTemplateTokens "abc" = "abc" ∧
    staticRender ⟨"abc"⟩ = some "abc" ∧
    pyFloat "abc" = none ∧
    asyncRetry sampleParams (fun _ => true) (fun _ => true) (fun _ => "abc")
        1 sampleParams.retries =
      [.invoke, .logLine .warn "Failed", .fireError] := by
  refine ⟨by decide, by decide, by decide, by decide, ?_⟩
  decide

/-! ## The sequence rewriter (_wrap_actions and async_actions) -/

/-- An action-sequence tree node, one variant per script action kind that
_wrap_actions distinguishes: a leaf call (carrying its resolved
domain.service name and data payload), repeat, choose with branches and
optional default, if with then and optional else, parallel, a nested
sequence, and any other action kind, which passes through untouched. -/
inductive SAction where
  | callSrv (domainService : String) (data : List (String × String))
  | repeatSeq (seq : List SAction)
  | chooseSeq (branches : List (List SAction)) (dflt : Option (List SAction))
  | ifThen (thn : List SAction) (els : Option (List SAction))
  | parallelSeq (branches : List (List SAction))
  | nestedSeq (seq : List SAction)
  | otherAction

/-- Python dict.update on an association list, one assignment at a time. -/
def dictMerge (d upd : List (String × String)) : List (String × String) :=
  upd.foldl (fun acc kv => dictSet acc kv.1 kv.2) d

mutual
/-- The function _wrap_actions on a single node. A leaf targeting the whole-sequence
service, or the single-action service under its current or legacy name, is
rejected; any other leaf is rewritten to route through the single-action
service with the retry parameters merged into its data, and re-validated;
compound nodes recurse into every branch. The RetryParams re-validation,
which needs the platform, is abstracted as validate. -/
def wrapAction (validate : List (String × String) → Except String Unit)
    (retryParams : List (String × String)) : SAction → Except String SAction
  | .callSrv domainService data =>
      if domainService = DOMAIN ++ "." ++ ACTIONS_SERVICE then
        .error "Nested retry.actions are disallowed"
      else if domainService = DOMAIN ++ "." ++ ACTION_SERVICE ∨
          domainService = DOMAIN ++ "." ++ CALL_SERVICE then
        .error (domainService ++ " inside retry.actions is disallowed")
      else do
        let newData := dictMerge (dictSet data "action" domainService) retryParams
        let _ ← validate newData
        pure (.callSrv (DOMAIN ++ "." ++ ACTION_SERVICE) newData)
  | .repeatSeq seq => do
      pure (.repeatSeq (← wrapSeq validate retryParams seq))
  | .chooseSeq branches dflt =>
      match dflt with
      | some d => do
          pure (.chooseSeq (← wrapBranches validate retryParams branches)
            (some (← wrapSeq validate retryParams d)))
      | none => do
          pure (.chooseSeq (← wrapBranches validate retryParams branches) none)
  | .ifThen thn els =>
      match els with
      | some e => do
          pure (.ifThen (← wrapSeq validate retryParams thn)
            (some (← wrapSeq validate retryParams e)))
      | none => do
          pure (.ifThen (← wrapSeq validate retryParams thn) none)
  | .parallelSeq branches => do
      pure (.parallelSeq (← wrapBranches validate retryParams branches))
  | .nestedSeq seq => do
      pure (.nestedSeq (← wrapSeq validate retryParams seq))
  | .otherAction => pure .otherAction

/-- The function _wrap_actions over a sequence, failing on the first rejected node. -/
def wrapSeq (validate : List (String × String) → Except String Unit)
    (retryParams : List (String × String)) :
    List SAction → Except String (List SAction)
  | [] => pure []
  | a :: rest => do
      pure ((← wrapAction validate retryParams a) ::
        (← wrapSeq validate retryParams rest))

/-- The function _wrap_actions over the branch list of a choose or parallel node. -/
def wrapBranches (validate : List (String × String) → Except String Unit)
    (retryParams : List (String × String)) :
    List (List SAction) → Except String (List (List SAction))
  | [] => pure []
  | b :: bs => do
      pure ((← wrapSeq validate retryParams b) ::
        (← wrapBranches validate retryParams bs))
end

mutual
/-- Whether a node contains, at any depth, a leaf call targeting the
whole-sequence retry service or the single-action retry service under its
current or legacy name. -/
def hasDisallowedAction : SAction → Bool
  | .callSrv ds _ =>
      ds == DOMAIN ++ "." ++ ACTIONS_SERVICE ||
      ds == DOMAIN ++ "." ++ ACTION_SERVICE ||
      ds == DOMAIN ++ "." ++ CALL_SERVICE
  | .repeatSeq seq => hasDisallowedSeq seq
  | .chooseSeq branches dflt =>
      hasDisallowedBranches branches ||
        (match dflt with
         | some d => hasDisallowedSeq d
         | none => false)
  | .ifThen thn els =>
      hasDisallowedSeq thn ||
        (match els with
         | some e => hasDisallowedSeq e
         | none => false)
  | .parallelSeq branches => hasDisallowedBranches branches
  | .nestedSeq seq => hasDisallowedSeq seq
  | .otherAction => false

def hasDisallowedSeq : List SAction → Bool
  | [] => false
  | a :: rest => hasDisallowedAction a || hasDisallowedSeq rest

def hasDisallowedBranches : List (List SAction) → Bool
  | [] => false
  | b :: bs => hasDisallowedSeq b || hasDisallowedBranches bs
end

/-- async_actions: the sequence is rewritten first; only a successful
rewrite is handed to the script runner, so a rejected rewrite happens
before any action of the sequence is invoked. -/
def asyncActions (validate : List (String × String) → Except String Unit)
    (retryParams : List (String × String)) (seq : List SAction) :
    Except String (List SAction) :=
  wrapSeq validate retryParams seq

theorem isErr_bind_left {α β : Type} (x : Except String α)
    (f : α → Except String β) (h : isErr x = true) :
    isErr (x >>= f) = true := by
  cases x with
  | error e => rfl
  | ok v => simp [isErr] at h

theorem isErr_bind_right {α β : Type} (x : Except String α)
    (f : α → Except String β) (h : ∀ v, isErr (f v) = true) :
    isErr (x >>= f) = true := by
  cases x with
  | error e => rfl
  | ok v => exact h v

theorem szRepeat (seq : List SAction) :
    sizeOf seq < sizeOf (SAction.repeatSeq seq) := by simp

theorem szChooseBranches (bs : List (List SAction)) (d : Option (List SAction)) :
    sizeOf bs < sizeOf (SAction.chooseSeq bs d) := by
  simp
  omega

theorem szChooseDflt (bs : List (List SAction)) (d : List SAction) :
    sizeOf d < sizeOf (SAction.chooseSeq bs (some d)) := by
  simp
  omega

theorem szIfThn (thn : List SAction) (els : Option (List SAction)) :
    sizeOf thn < sizeOf (SAction.ifThen thn els) := by
  simp
  omega

theorem szIfEls (thn e : List SAction) :
    sizeOf e < sizeOf (SAction.ifThen thn (some e)) := by
  simp
  omega

theorem szParallel (bs : List (List SAction)) :
    sizeOf bs < sizeOf (SAction.parallelSeq bs) := by simp

theorem szNested (seq : List SAction) :
    sizeOf seq < sizeOf (SAction.nestedSeq seq) := by simp

theorem szHead {α : Type} [SizeOf α] (a : α) (l : List α) :
    sizeOf a < sizeOf (a :: l) := by
  simp
  omega

theorem szTail {α : Type} [SizeOf α] (a : α) (l : List α) :
    sizeOf l < sizeOf (a :: l) := by
  simp

/-- Any tree with a disallowed leaf is rejected by the rewriter,
simultaneously for nodes, sequences and branch lists, by strong induction
on size. -/
theorem wrapDisallowed_all (validate : List (String × String) → Except String Unit)
    (retryParams : List (String × String)) :
    ∀ N : Nat,
      (∀ a : SAction, sizeOf a ≤ N → hasDisallowedAction a = true →
          isErr (wrapAction validate retryParams a) = true) ∧
      (∀ s : List SAction, sizeOf s ≤ N → hasDisallowedSeq s = true →
          isErr (wrapSeq validate retryParams s) = true) ∧
      (∀ bs : List (List SAction), sizeOf bs ≤ N →
          hasDisallowedBranches bs = true →
          isErr (wrapBranches validate retryParams bs) = true) := by
  intro N
  induction N using Nat.strong_induction_on with
  | _ N IH =>
    refine ⟨?_, ?_, ?_⟩
    · intro a hsize hbad
      cases a with
      | callSrv ds data =>
          simp only [hasDisallowedAction, Bool.or_eq_true, beq_iff_eq] at hbad
          unfold wrapAction
          rcases hbad with (h | h) | h
          · rw [if_pos h]
            rfl
          · subst h
            rw [if_neg (by decide), if_pos (Or.inl rfl)]
            rfl
          · subst h
            rw [if_neg (by decide), if_pos (Or.inr rfl)]
            rfl
      | repeatSeq seq =>
          simp only [hasDisallowedAction] at hbad
          have hlt : sizeOf seq < N :=
            lt_of_lt_of_le (szRepeat seq) hsize
          have herr := (IH (sizeOf seq) hlt).2.1 seq (le_refl _) hbad
          simp only [wrapAction]
          exact isErr_bind_left _ _ herr
      | chooseSeq branches dflt =>
          cases dflt with
          | none =>
              simp only [hasDisallowedAction, Bool.or_eq_true] at hbad
              have hb : hasDisallowedBranches branches = true := by
                rcases hbad with hb | hb
                · exact hb
                · simp at hb
              have hlt : sizeOf branches < N :=
                lt_of_lt_of_le (szChooseBranches branches none) hsize
              have herr := (IH (sizeOf branches) hlt).2.2 branches (le_refl _) hb
              simp only [wrapAction]
              exact isErr_bind_left _ _ herr
          | some d =>
              simp only [hasDisallowedAction, Bool.or_eq_true] at hbad
              simp only [wrapAction]
              rcases hbad with hb | hd
              · have hlt : sizeOf branches < N :=
                  lt_of_lt_of_le (szChooseBranches branches (some d)) hsize
                have herr := (IH (sizeOf branches) hlt).2.2 branches (le_refl _) hb
                exact isErr_bind_left _ _ herr
              · have hlt : sizeOf d < N :=
                  lt_of_lt_of_le (szChooseDflt branches d) hsize
                have herr := (IH (sizeOf d) hlt).2.1 d (le_refl _) hd
                exact isErr_bind_right _ _ (fun _ => isErr_bind_left _ _ herr)
      | ifThen thn els =>
          cases els with
          | none =>
              simp only [hasDisallowedAction, Bool.or_eq_true] at hbad
              have ht : hasDisallowedSeq thn = true := by
                rcases hbad with ht | ht
                · exact ht
                · simp at ht
              have hlt : sizeOf thn < N :=
                lt_of_lt_of_le (szIfThn thn none) hsize
              have herr := (IH (sizeOf thn) hlt).2.1 thn (le_refl _) ht
              simp only [wrapAction]
              exact isErr_bind_left _ _ herr
          | some e =>
              simp only [hasDisallowedAction, Bool.or_eq_true] at hbad
              simp only [wrapAction]
              rcases hbad with ht | he
              · have hlt : sizeOf thn < N :=
                  lt_of_lt_of_le (szIfThn thn (some e)) hsize
                have herr := (IH (sizeOf thn) hlt).2.1 thn (le_refl _) ht
                exact isErr_bind_left _ _ herr
              · have hlt : sizeOf e < N :=
                  lt_of_lt_of_le (szIfEls thn e) hsize
                have herr := (IH (sizeOf e) hlt).2.1 e (le_refl _) he
                exact isErr_bind_right _ _ (fun _ => isErr_bind_left _ _ herr)
      | parallelSeq branches =>
          simp only [hasDisallowedAction] at hbad
          have hlt : sizeOf branches < N :=
            lt_of_lt_of_le (szParallel branches) hsize
          have herr := (IH (sizeOf branches) hlt).2.2 branches (le_refl _) hbad
          simp only [wrapAction]
          exact isErr_bind_left _ _ herr
      | nestedSeq seq =>
          simp only [hasDisallowedAction] at hbad
          have hlt : sizeOf seq < N :=
            lt_of_lt_of_le (szNested seq) hsize
          have herr := (IH (sizeOf seq) hlt).2.1 seq (le_refl _) hbad
          simp only [wrapAction]
          exact isErr_bind_left _ _ herr
      | otherAction => simp [hasDisallowedAction] at hbad
    · intro s hsize hbad
      cases s with
      | nil => simp [hasDisallowedSeq] at hbad
      | cons a rest =>
          simp only [hasDisallowedSeq, Bool.or_eq_true] at hbad
          simp only [wrapSeq]
          rcases hbad with ha | hr
          · have hlt : sizeOf a < N := lt_of_lt_of_le (szHead a rest) hsize
            have herr := (IH (sizeOf a) hlt).1 a (le_refl _) ha
            exact isErr_bind_left _ _ herr
          · have hlt : sizeOf rest < N := lt_of_lt_of_le (szTail a rest) hsize
            have herr := (IH (sizeOf rest) hlt).2.1 rest (le_refl _) hr
            exact isErr_bind_right _ _ (fun _ => isErr_bind_left _ _ herr)
    · intro bs hsize hbad
      cases bs with
      | nil => simp [hasDisallowedBranches] at hbad
      | cons b rest =>
          simp only [hasDisallowedBranches, Bool.or_eq_true] at hbad
          simp only [wrapBranches]
          rcases hbad with hb | hr
          · have hlt : sizeOf b < N := lt_of_lt_of_le (szHead b rest) hsize
            have herr := (IH (sizeOf b) hlt).2.1 b (le_refl _) hb
            exact isErr_bind_left _ _ herr
          · have hlt : sizeOf rest < N := lt_of_lt_of_le (szTail b rest) hsize
            have herr := (IH (sizeOf rest) hlt).2.2 rest (le_refl _) hr
            exact isErr_bind_right _ _ (fun _ => isErr_bind_left _ _ herr)

/-- C6: a sequence with a leaf call targeting the whole-sequence retry
service, or the single-action retry service under its current or legacy
name, at any nesting depth, is rejected by the rewrite with an error, for
every parameter re-validation, so nothing of the sequence is ever handed
to the script runner. -/
theorem c6_disallowed_nesting
    (validate : List (String × String) → Except String Unit)
    (retryParams : List (String × String)) (seq : List SAction)
    (h : hasDisallowedSeq seq = true) :
    isErr (asyncActions validate retryParams seq) = true :=
  (wrapDisallowed_all validate retryParams (sizeOf seq)).2.1 seq (le_refl _) h

/-- A sequence nesting a disallowed leaf two levels deep. -/
def c6SampleSeq : List SAction :=
  [SAction.nestedSeq [SAction.repeatSeq [SAction.callSrv "retry.actions" []]]]

/-- Witness for c6_disallowed_nesting. -/
theorem c6_disallowed_nesting_witness :
    hasDisallowedSeq c6SampleSeq = true ∧
      isErr (asyncActions (fun _ => Except.ok ()) [] c6SampleSeq) = true := by
  have hbad : hasDisallowedSeq c6SampleSeq = true := by
    simp [c6SampleSeq, hasDisallowedSeq, hasDisallowedAction, DOMAIN,
      ACTIONS_SERVICE]
  exact ⟨hbad, c6_disallowed_nesting (fun _ => Except.ok ()) [] c6SampleSeq hbad⟩

/-! ## Legacy service key and service registration (C10) -/

/-- A raw request mapping, read by key. -/
def ReqData : Type := String → Option String

/-- The function _rename_legacy_service_key: pop the legacy service key and store its
value under the action key. -/
def renameLegacyServiceKey (d : ReqData) : ReqData :=
  match d "service" with
  | some v => fun k => if k = "action" then some v else if k = "service" then none else d k
  | none => d

/-- cv.has_at_least_one_key over the service and action keys. -/
def hasAtLeastOneKey (d : ReqData) : Except String ReqData :=
  if (d "service").isSome || (d "action").isSome then .ok d
  else .error "must contain at least one of service, action."

/-- cv.has_at_most_one_key over the service and action keys. -/
def hasAtMostOneKey (d : ReqData) : Except String ReqData :=
  if (d "service").isSome && (d "action").isSome then
    .error "must contain at most one of service, action."
  else .ok d

/-- ACTION_SERVICE_SCHEMA: vol.All applies the two key checks, the legacy
key rename and then the parameter schema, in order; ACTION_SERVICE_PARAMS
is abstracted as the validateParams argument. -/
def actionServiceSchema (validateParams : ReqData → Except String ReqData)
    (d : ReqData) : Except String ReqData := do
  let d1 ← hasAtLeastOneKey d
  let d2 ← hasAtMostOneKey d1
  validateParams (renameLegacyServiceKey d2)

inductive HandlerTag where
  | actionHandler
  | actionsHandler
deriving DecidableEq, Repr

inductive SchemaTag where
  | actionSchemaTag
  | actionsSchemaTag
deriving DecidableEq, Repr

/-- The three service registrations performed by async_setup_entry, in
source order: domain, service name, handler, schema. -/
def registeredServices : List (String × String × HandlerTag × SchemaTag) :=
  [(DOMAIN, ACTION_SERVICE, .actionHandler, .actionSchemaTag),
   (DOMAIN, CALL_SERVICE, .actionHandler, .actionSchemaTag),
   (DOMAIN, ACTIONS_SERVICE, .actionsHandler, .actionsSchemaTag)]

/-- C10: a request that carries the target under the legacy service key
resolves to exactly the same value as the same request carrying it under
the action key, for every parameter schema; and the action service and the
legacy call service are registered with the same handler and schema. -/
theorem c10_legacy_equiv
    (validateParams : ReqData → Except String ReqData) (d : ReqData) (v : String)
    (hact : d "action" = none) (hsvc : d "service" = some v) :
    actionServiceSchema validateParams d =
      actionServiceSchema validateParams
        (fun k => if k = "action" then some v else if k = "service" then none else d k) ∧
    (∃ h s, (DOMAIN, ACTION_SERVICE, h, s) ∈ registeredServices ∧
      (DOMAIN, CALL_SERVICE, h, s) ∈ registeredServices) := by
  constructor
  · have e1 : hasAtLeastOneKey d = Except.ok d := by
      unfold hasAtLeastOneKey
      rw [hsvc]
      rfl
    have e2 : hasAtMostOneKey d = Except.ok d := by
      unfold hasAtMostOneKey
      rw [hsvc, hact]
      rfl
    have e3 : renameLegacyServiceKey d =
        (fun k => if k = "action" then some v else if k = "service" then none else d k) := by
      unfold renameLegacyServiceKey
      rw [hsvc]
    have lhs : actionServiceSchema validateParams d =
        validateParams
          (fun k => if k = "action" then some v else if k = "service" then none else d k) := by
      unfold actionServiceSchema
      rw [e1]
      show (do
        let d2 ← hasAtMostOneKey d
        validateParams (renameLegacyServiceKey d2)) = _
      rw [e2]
      show validateParams (renameLegacyServiceKey d) = _
      rw [e3]
    have rhs : actionServiceSchema validateParams
        (fun k => if k = "action" then some v else if k = "service" then none else d k) =
        validateParams
          (fun k => if k = "action" then some v else if k = "service" then none else d k) := rfl
    rw [lhs, rhs]
  · exact ⟨.actionHandler, .actionSchemaTag,
      by simp [registeredServices], by simp [registeredServices]⟩

/-- A concrete request mapping that uses the legacy service key. -/
def c10SampleData : ReqData := fun k =>
  if k = "service" then some "light.turn_on" else none

/-- Witness for c10_legacy_equiv at a concrete request. -/
theorem c10_legacy_equiv_witness :
    (c10SampleData "action" = none ∧ c10SampleData "service" = some "light.turn_on") ∧
      actionServiceSchema Except.ok c10SampleData =
        actionServiceSchema Except.ok
          (fun k => if k = "action" then some "light.turn_on"
                    else if k = "service" then none else c10SampleData k) :=
  ⟨⟨rfl, rfl⟩, (c10_legacy_equiv Except.ok c10SampleData "light.turn_on" rfl rfl).1⟩

end RetrySpec
